import Mathlib

/-!
# Verification of `envato_scrape`

A shallow embedding of the repository `tomc1998/envato_scrape`
(`src/envato_scrape/product.py`, `src/envato_scrape/cache.py`,
`src/envato_scrape/__init__.py`) together with proofs about the
serialization round-trips, the cache store, the report generators, the
crawl pagination loop and the rate-limited API client.

Python runtime values that flow through untyped dictionaries are modelled
by the inductive type `PyVal`; Python `float` is modelled by the exact
fraction type `Frac` (no claim settled here depends on binary rounding:
every float the theorems evaluate is dyadic with a short decimal
expansion, on which IEEE-754 double arithmetic is exact).  Operations
that can raise a Python exception are modelled in `Except PyErr`.
-/

namespace EnvatoScrape

/-- An exact fraction (the model of a Python float).  Every value the
operations below construct has a positive denominator. -/
structure Frac where
  num : Int
  den : Int
  deriving Repr, DecidableEq

/-- The fraction of an integer. -/
def Frac.ofInt (n : Int) : Frac := ⟨n, 1⟩

/-- Fraction addition. -/
def Frac.add (a b : Frac) : Frac :=
  ⟨a.num * b.den + b.num * a.den, a.den * b.den⟩

/-- Fraction multiplication. -/
def Frac.mul (a b : Frac) : Frac := ⟨a.num * b.num, a.den * b.den⟩

/-- Fraction division, keeping the denominator positive. -/
def Frac.div (a b : Frac) : Frac :=
  let n := a.num * b.den
  let d := a.den * b.num
  if d < 0 then ⟨-n, -d⟩ else ⟨n, d⟩

/-- Value comparison (valid for positive denominators). -/
def Frac.le (a b : Frac) : Prop := a.num * b.den ≤ b.num * a.den

instance : DecidableRel Frac.le := fun a b =>
  inferInstanceAs (Decidable (a.num * b.den ≤ b.num * a.den))

/-- The canonical form of a fraction (used for dict-key equality, where
Python identifies `1`, `1.0` and `True`). -/
def Frac.reduce (q : Frac) : Frac :=
  let s : Int := if q.den < 0 then -1 else 1
  let g : Int := (Int.gcd q.num q.den : Nat)
  if g = 0 then ⟨0, 1⟩ else ⟨s * q.num / g, s * q.den / g⟩

/-- A Python runtime value as it appears in the (JSON- or pickle-derived)
dictionaries handled by the program.  Dictionary keys in every payload this
program builds or consumes are strings. -/
inductive PyVal where
  | none
  | bool (b : Bool)
  | int (n : Int)
  | float (q : Frac)
  | str (s : String)
  | list (xs : List PyVal)
  | dict (d : List (String × PyVal))

/-- The Python exceptions the embedded code can raise. -/
inductive PyErr where
  | keyError (k : String)
  /-- e.g. calling `.get`/`.items()`/`.replace` on a value lacking it. -/
  | attributeError
  | typeError
  | valueError
  deriving Repr, DecidableEq

/-- Association-list lookup (Python `d[k]` / `k in d` on insertion-ordered
dicts). -/
def alGet {α β : Type} [DecidableEq α] (l : List (α × β)) (k : α) :
    Option β :=
  (l.find? (fun p => p.1 = k)).map (·.2)

/-- Association-list insert-or-update: Python `d[k] = v` keeps the position
of an existing key and appends a new one. -/
def alSet {α β : Type} [DecidableEq α] :
    List (α × β) → α → β → List (α × β)
  | [], k, v => [(k, v)]
  | (k', v') :: t, k, v =>
    if k' = k then (k, v) :: t else (k', v') :: alSet t k v

/-- Python `data.get(k, default)`: defined on dicts, `AttributeError`
otherwise. -/
def PyVal.get (v : PyVal) (k : String) (default : PyVal) :
    Except PyErr PyVal :=
  match v with
  | .dict d => .ok ((alGet d k).getD default)
  | _ => .error .attributeError

/-- Python `data[k]` on a dict: `KeyError` when the key is missing,
`TypeError` when the value is not a dict. -/
def PyVal.getItem (v : PyVal) (k : String) : Except PyErr PyVal :=
  match v with
  | .dict d =>
    match alGet d k with
    | some x => .ok x
    | Option.none => .error (.keyError k)
  | _ => .error .typeError

/-- Read a value that the surrounding code requires to be a string
(`Category.name`/`Category.path`, which become dictionary keys, and fields
the reports call `.replace` on). -/
def PyVal.asStr : PyVal → Except PyErr String
  | .str s => .ok s
  | _ => .error .typeError

/-- Read a value at integer type (used for `Product.id`, which keys the
products map, and for `Category.total_products`). -/
def PyVal.asInt : PyVal → Except PyErr Int
  | .int n => .ok n
  | _ => .error .typeError

/-- Read an optional integer: Python `data.get(k)` yielding `None` or an
int. -/
def PyVal.asOptInt : PyVal → Except PyErr (Option Int)
  | .none => .ok Option.none
  | .int n => .ok (some n)
  | _ => .error .typeError

/-! ## Decimal numerals

`Cache.serialize` writes product keys through Python `str(product_id)` and
`Cache.load` reads them back through `int(product_id)`; the API client
parses `Retry-After` headers through `int(...)`.  We model `str` on
integers and `int` on strings (optional sign followed by ASCII digits;
Python's additional acceptance of surrounding whitespace and underscores
is not modelled, which only narrows the parser's domain). -/

/-- The ASCII character of a decimal digit. -/
def digitChar (d : Nat) : Char := Char.ofNat (48 + d)

/-- The decimal-digit value of an ASCII character, if it is one. -/
def digitVal (c : Char) : Option Nat :=
  if 48 ≤ c.toNat ∧ c.toNat ≤ 57 then some (c.toNat - 48) else Option.none

/-- Little-endian decimal digits, computed with an explicit fuel so that
the kernel can evaluate it (`Nat.digits` is well-founded and does not
reduce); `natDigitsAux_eq` identifies it with `Nat.digits 10`. -/
def natDigitsAux : Nat → Nat → List Nat
  | 0, _ => []
  | _ + 1, 0 => []
  | fuel + 1, n + 1 => ((n + 1) % 10) :: natDigitsAux fuel ((n + 1) / 10)

/-- Little-endian decimal digits of `n`. -/
def natDigits (n : Nat) : List Nat := natDigitsAux n n

/-- Python `str` on a natural number. -/
def pyStrOfNat (n : Nat) : String :=
  if n = 0 then "0" else String.mk ((natDigits n).reverse.map digitChar)

/-- Python `str` on an integer. -/
def pyStrOfInt : Int → String
  | .ofNat n => pyStrOfNat n
  | .negSucc m => "-" ++ pyStrOfNat (m + 1)

/-- The digit values of a character list, `none` when any is not a
digit. -/
def digitVals : List Char → Option (List Nat)
  | [] => some []
  | c :: t => do
    let d ← digitVal c
    let ds ← digitVals t
    some (d :: ds)

/-- Value of a most-significant-first digit-character list; `none` when
empty or containing a non-digit. -/
def parseDigits (cs : List Char) : Option Nat :=
  match cs with
  | [] => Option.none
  | _ => (digitVals cs).map fun ds => Nat.ofDigits 10 ds.reverse

/-- Python `int` on a character list: an optional sign followed by
digits. -/
def pyIntOfChars : List Char → Except PyErr Int
  | [] => .error .valueError
  | c :: rest =>
    if c = '-' then
      match parseDigits rest with
      | some n => .ok (-(n : Int))
      | Option.none => .error .valueError
    else if c = '+' then
      match parseDigits rest with
      | some n => .ok (n : Int)
      | Option.none => .error .valueError
    else
      match parseDigits (c :: rest) with
      | some n => .ok (n : Int)
      | Option.none => .error .valueError

/-- Python `int` on a string (`ValueError` on anything that is not an
optionally signed decimal numeral). -/
def pyIntOfString (s : String) : Except PyErr Int :=
  pyIntOfChars s.data

/-! ## Domain records (`src/envato_scrape/product.py`)

Leaf fields that the Python code stores without inspecting are kept as
`PyVal`.  Two exceptions are read at their annotated types because the
rest of the program uses them as dictionary keys: `Product.id`
(`dict[int, Product]`) and `Category.name`/`Category.path`
(`dict[str, Category]`); `Category.total_products` is likewise read as an
optional integer. -/

/-- `Rating` (product.py lines 5–15). -/
structure Rating where
  rating : PyVal
  count : PyVal

/-- `Rating.serialize` (product.py line 10). -/
def Rating.serialize (r : Rating) : PyVal :=
  .dict [("rating", r.rating), ("count", r.count)]

/-- `Rating.from_dict` (product.py line 13). -/
def Rating.from_dict (data : PyVal) : Except PyErr Rating := do
  let rating ← data.get "rating" (.float (Frac.ofInt 0))
  let count ← data.get "count" (.int 0)
  .ok ⟨rating, count⟩

/-- `Length` (product.py lines 18–33). -/
structure Length where
  hours : PyVal
  minutes : PyVal
  seconds : PyVal

/-- `Length.serialize` (product.py line 24). -/
def Length.serialize (l : Length) : PyVal :=
  .dict [("hours", l.hours), ("minutes", l.minutes), ("seconds", l.seconds)]

/-- `Length.from_dict` (product.py line 27). -/
def Length.from_dict (data : PyVal) : Except PyErr Length := do
  let hours ← data.get "hours" (.int 0)
  let minutes ← data.get "minutes" (.int 0)
  let seconds ← data.get "seconds" (.int 0)
  .ok ⟨hours, minutes, seconds⟩

/-- `Preview` (product.py lines 36–64). -/
structure Preview where
  icon_url : PyVal
  mp3_url : PyVal
  mp3_preview_waveform_url : PyVal
  mp3_preview_download_url : PyVal
  mp3_id : PyVal
  length : Length

/-- `Preview.serialize` (product.py line 45). -/
def Preview.serialize (p : Preview) : PyVal :=
  .dict
    [("icon_url", p.icon_url), ("mp3_url", p.mp3_url),
     ("mp3_preview_waveform_url", p.mp3_preview_waveform_url),
     ("mp3_preview_download_url", p.mp3_preview_download_url),
     ("mp3_id", p.mp3_id), ("length", p.length.serialize)]

/-- `Preview.from_dict` (product.py line 55). -/
def Preview.from_dict (data : PyVal) : Except PyErr Preview := do
  let icon_url ← data.get "icon_url" (.str "")
  let mp3_url ← data.get "mp3_url" (.str "")
  let wave ← data.get "mp3_preview_waveform_url" (.str "")
  let down ← data.get "mp3_preview_download_url" (.str "")
  let mp3_id ← data.get "mp3_id" (.int 0)
  let length ← Length.from_dict (← data.get "length" (.dict []))
  .ok ⟨icon_url, mp3_url, wave, down, mp3_id, length⟩

/-- `Product` (product.py lines 67–160). -/
structure Product where
  id : Int
  name : PyVal
  description : PyVal
  description_html : PyVal
  site : PyVal
  classification : PyVal
  classification_url : PyVal
  price_cents : PyVal
  number_of_sales : PyVal
  author_username : PyVal
  author_url : PyVal
  author_image : PyVal
  url : PyVal
  summary : PyVal
  rating : Rating
  updated_at : PyVal
  published_at : PyVal
  trending : PyVal
  previews : Preview
  attributes : PyVal
  photo_attributes : PyVal
  key_features : PyVal
  image_urls : PyVal
  tags : PyVal
  discounts : PyVal

/-- `Product.serialize` (product.py line 101). -/
def Product.serialize (p : Product) : PyVal :=
  .dict
    [("id", .int p.id), ("name", p.name), ("description", p.description),
     ("description_html", p.description_html), ("site", p.site),
     ("classification", p.classification),
     ("classification_url", p.classification_url),
     ("price_cents", p.price_cents),
     ("number_of_sales", p.number_of_sales),
     ("author_username", p.author_username), ("author_url", p.author_url),
     ("author_image", p.author_image), ("url", p.url),
     ("summary", p.summary), ("rating", p.rating.serialize),
     ("updated_at", p.updated_at), ("published_at", p.published_at),
     ("trending", p.trending), ("previews", p.previews.serialize),
     ("attributes", p.attributes),
     ("photo_attributes", p.photo_attributes),
     ("key_features", p.key_features), ("image_urls", p.image_urls),
     ("tags", p.tags), ("discounts", p.discounts)]

/-- `Product.from_dict` (product.py line 130).  Note line 151: the previews
field is read from `data.get("previews", {}).get("icon_with_audio_preview",
{})`, one level deeper than `serialize` writes it. -/
def Product.from_dict (data : PyVal) : Except PyErr Product := do
  let id ← (← data.get "id" (.int 0)).asInt
  let name ← data.get "name" (.str "")
  let description ← data.get "description" (.str "")
  let description_html ← data.get "description_html" (.str "")
  let site ← data.get "site" (.str "")
  let classification ← data.get "classification" (.str "")
  let classification_url ← data.get "classification_url" (.str "")
  let price_cents ← data.get "price_cents" (.int 0)
  let number_of_sales ← data.get "number_of_sales" (.int 0)
  let author_username ← data.get "author_username" (.str "")
  let author_url ← data.get "author_url" (.str "")
  let author_image ← data.get "author_image" (.str "")
  let url ← data.get "url" (.str "")
  let summary ← data.get "summary" (.str "")
  let rating ← Rating.from_dict (← data.get "rating" (.dict []))
  let updated_at ← data.get "updated_at" (.str "")
  let published_at ← data.get "published_at" (.str "")
  let trending ← data.get "trending" (.bool false)
  let previewsOuter ← data.get "previews" (.dict [])
  let previews ←
    Preview.from_dict (← previewsOuter.get "icon_with_audio_preview" (.dict []))
  let attributes ← data.get "attributes" (.list [])
  let photo_attributes ← data.get "photo_attributes" (.list [])
  let key_features ← data.get "key_features" (.list [])
  let image_urls ← data.get "image_urls" (.list [])
  let tags ← data.get "tags" (.list [])
  let discounts ← data.get "discounts" (.list [])
  .ok
    ⟨id, name, description, description_html, site, classification,
     classification_url, price_cents, number_of_sales, author_username,
     author_url, author_image, url, summary, rating, updated_at,
     published_at, trending, previews, attributes, photo_attributes,
     key_features, image_urls, tags, discounts⟩

/-- `Product.get_attribute` (product.py lines 95–99): linear scan of the
`attributes` list; `attrib['name'] == name` compares a runtime value with
the string argument (in Python only an equal string compares equal to a
string). -/
def getAttributeScan (name : String) :
    List PyVal → Except PyErr (Option PyVal)
  | [] => .ok Option.none
  | attrib :: rest => do
    let n ← attrib.getItem "name"
    match n with
    | .str s =>
      if s = name then do
        .ok (some (← attrib.getItem "value"))
      else getAttributeScan name rest
    | _ => getAttributeScan name rest

/-- See the doc comment above: the body of `Product.get_attribute`. -/
def Product.get_attribute (p : Product) (name : String) :
    Except PyErr (Option PyVal) :=
  match p.attributes with
  | .list xs => getAttributeScan name xs
  | _ => .error .typeError

/-- `Category` (product.py lines 163–179). -/
structure Category where
  name : String
  path : String
  total_products : Option Int
  deriving Repr, DecidableEq

/-- `Category.serialize` (product.py line 169): `total_products` is emitted
only when it is not `None`. -/
def Category.serialize (c : Category) : PyVal :=
  match c.total_products with
  | Option.none => .dict [("name", .str c.name), ("path", .str c.path)]
  | some t =>
    .dict
      [("name", .str c.name), ("path", .str c.path),
       ("total_products", .int t)]

/-- `Category.from_dict` (product.py line 175): `data["name"]` and
`data["path"]` are subscript accesses, raising `KeyError` when missing;
only `total_products` is read with a default. -/
def Category.from_dict (data : PyVal) : Except PyErr Category := do
  let name ← (← data.getItem "name").asStr
  let path ← (← data.getItem "path").asStr
  let tp ← (← data.get "total_products" .none).asOptInt
  .ok ⟨name, path, tp⟩

/-! ## The cache store (`src/envato_scrape/cache.py`)

The maps are insertion-ordered dictionaries, modelled as association
lists.  Writing the persistence file is modelled as producing the pickled
payload; `PickleFile` models what `pickle.load` finds in an existing
file. -/

/-- `Cache` state (cache.py lines 11–15): categories keyed by site then
path, products keyed by numeric id, plus the dirty flag.  (The constant
`cache_file` name is not part of the state.) -/
structure Cache where
  categories : List (String × List (String × Category))
  products : List (Int × Product)
  dirty : Bool

/-- `Cache.add_category` (cache.py lines 25–29): set the dirty flag,
create the site's inner map if absent, then upsert under
`category.path`. -/
def Cache.add_category (c : Cache) (site : String) (category : Category) :
    Cache :=
  let inner := (alGet c.categories site).getD []
  { c with
    dirty := true
    categories :=
      alSet c.categories site (alSet inner category.path category) }

/-- `Cache.add_product` (cache.py lines 31–33): set the dirty flag and
upsert under `product.id`. -/
def Cache.add_product (c : Cache) (p : Product) : Cache :=
  { c with dirty := true, products := alSet c.products p.id p }

/-- `Cache.serialize` (cache.py lines 35–43): nested maps of serialized
records; product keys pass through `str(product_id)`. -/
def Cache.serializeStore (c : Cache) : PyVal :=
  .dict
    [("categories",
      .dict (c.categories.map fun sc =>
        (sc.1, PyVal.dict (sc.2.map fun nc => (nc.1, nc.2.serialize))))),
     ("products",
      .dict (c.products.map fun ip => (pyStrOfInt ip.1, ip.2.serialize)))]

/-- `Cache.save` (cache.py lines 50–55): writes the serialized store to
the cache file (an I/O failure is caught and reported, never raised).  The
write is modelled as the payload it produces. -/
def Cache.save (c : Cache) : PyVal := c.serializeStore

/-- `Cache.maybe_save` (cache.py lines 45–48): saves only when dirty, then
clears the flag.  Returns the new state and the write performed, if
any. -/
def Cache.maybe_save (c : Cache) : Cache × Option PyVal :=
  if c.dirty then ({ c with dirty := false }, some c.save)
  else (c, Option.none)

/-- cache.py line 23: the hook `Cache.__init__` registers with `atexit` is
`maybe_save`. -/
def Cache.exitHook (c : Cache) : Cache × Option PyVal := c.maybe_save

/-- `__init__.py` lines 194–247 contain a superseded copy of the `Cache`
class — the one the CLI's global `cache` (line 251) actually instantiates.
It has no dirty flag, and its `__init__` (line 204) registers `self.save`,
not `maybe_save`, with `atexit`: the hook writes unconditionally. -/
def initModuleExitHook (c : Cache) : Cache × Option PyVal :=
  (c, some c.save)

/-- Contents of the persistence file: `corrupt` models bytes on which
`pickle.load` raises; `stored v` a successful unpickle yielding `v`. -/
inductive PickleFile where
  | corrupt
  | stored (v : PyVal)

/-- Inner loop of `Cache.load` (cache.py lines 65–68):
`self.categories[site][name] = Category.from_dict(category_data)` per
entry; an exception aborts, keeping the mutations made so far.  Returns
the state and whether an exception occurred. -/
def loadCatsInner (c : Cache) (site : String) :
    List (String × PyVal) → Cache × Bool
  | [] => (c, false)
  | (name, cd) :: rest =>
    match Category.from_dict cd with
    | .error _ => (c, true)
    | .ok cat =>
      loadCatsInner
        { c with
          categories :=
            alSet c.categories site
              (alSet ((alGet c.categories site).getD []) name cat) }
        site rest

/-- Outer loop of `Cache.load` (cache.py lines 63–68): for each site,
`self.categories[site] = {}` runs before the inner `.items()` call, so a
non-dict value leaves the reset behind. -/
def loadCatsOuter (c : Cache) : List (String × PyVal) → Cache × Bool
  | [] => (c, false)
  | (site, catsVal) :: rest =>
    let c1 := { c with categories := alSet c.categories site [] }
    match catsVal with
    | .dict entries =>
      match loadCatsInner c1 site entries with
      | (c2, false) => loadCatsOuter c2 rest
      | (c2, true) => (c2, true)
    | _ => (c1, true)

/-- Products loop of `Cache.load` (cache.py lines 70–71):
`self.products[int(product_id)] = Product.from_dict(product_data)`; the
right-hand side is evaluated before the subscript's `int(...)`. -/
def loadProds (c : Cache) : List (String × PyVal) → Cache × Bool
  | [] => (c, false)
  | (pid, pd) :: rest =>
    match Product.from_dict pd with
    | .error _ => (c, true)
    | .ok p =>
      match pyIntOfString pid with
      | .error _ => (c, true)
      | .ok n => loadProds { c with products := alSet c.products n p } rest

/-- `Cache.load` (cache.py lines 57–73): a missing file (`none`) is a
no-op; every exception is caught and reported as a warning (line 72–73),
leaving whatever mutations had already been made when it was raised. -/
def Cache.loadFrom (c : Cache) (file : Option PickleFile) : Cache :=
  match file with
  | Option.none => c
  | some .corrupt => c
  | some (.stored data) =>
    match data with
    | .dict d =>
      match (alGet d "categories").getD (.dict []) with
      | .dict centries =>
        match loadCatsOuter c centries with
        | (c1, true) => c1
        | (c1, false) =>
          match (alGet d "products").getD (.dict []) with
          | .dict pentries => (loadProds c1 pentries).1
          | _ => c1
      | _ => c
    | _ => c

/-- `Cache.__init__` (cache.py lines 17–23): empty maps and a clear dirty
flag, then `load()`. -/
def Cache.init (file : Option PickleFile) : Cache :=
  Cache.loadFrom ⟨[], [], false⟩ file

/-! ## Python numeric operators

Needed by the report commands in `__init__.py`, which do arithmetic on
untyped product fields.  `bool` participates as an integer, mirroring
Python. -/

/-- The integer value of a Python value when it is `int`-like. -/
def PyVal.intVal : PyVal → Option Int
  | .bool b => some (if b then 1 else 0)
  | .int n => some n
  | _ => Option.none

/-- The numeric value of a Python value when it is a number. -/
def PyVal.numVal : PyVal → Option Frac
  | .bool b => some (Frac.ofInt (if b then 1 else 0))
  | .int n => some (Frac.ofInt n)
  | .float q => some q
  | _ => Option.none

/-- Python `+` on numbers (`TypeError` otherwise); the result is a float
iff an operand is one. -/
def pyAdd (a b : PyVal) : Except PyErr PyVal :=
  match a.intVal, b.intVal with
  | some x, some y => .ok (.int (x + y))
  | _, _ =>
    match a.numVal, b.numVal with
    | some x, some y => .ok (.float (x.add y))
    | _, _ => .error .typeError

/-- Python `*` on numbers (`TypeError` otherwise). -/
def pyMul (a b : PyVal) : Except PyErr PyVal :=
  match a.intVal, b.intVal with
  | some x, some y => .ok (.int (x * y))
  | _, _ =>
    match a.numVal, b.numVal with
    | some x, some y => .ok (.float (x.mul y))
    | _, _ => .error .typeError

/-- Python `float(x)` on a number (string parsing is never exercised
here). -/
def pyFloat (a : PyVal) : Except PyErr PyVal :=
  match a.numVal with
  | some x => .ok (.float x)
  | _ => .error .typeError

/-- Python true division `/`: always a float; `ZeroDivisionError` modelled
as `valueError`. -/
def pyDiv (a b : PyVal) : Except PyErr PyVal :=
  match a.numVal, b.numVal with
  | some x, some y =>
    if y.num = 0 then .error .valueError else .ok (.float (x.div y))
  | _, _ => .error .typeError

/-- `f"{x}"` (no format spec) for the value kinds the reports interpolate.
`str` of a float has no exact rational model and is mapped to an error;
no settled claim evaluates it. -/
def pyFStr : PyVal → Except PyErr String
  | .int n => .ok (pyStrOfInt n)
  | .str s => .ok s
  | .bool b => .ok (if b then "True" else "False")
  | _ => .error .typeError

/-- Round to an integer, ties to even (Python's float formatting
rounding; exact on the values the theorems evaluate). -/
def roundHalfEven (q : Frac) : Int :=
  let f := Int.fdiv q.num q.den
  let r2 := 2 * (q.num - f * q.den)
  if r2 < q.den then f
  else if q.den < r2 then f + 1
  else if f % 2 = 0 then f else f + 1

/-- The fixed-two-decimals rendering of a rational. -/
def fixed2String (q : Frac) : String :=
  let n := roundHalfEven (q.mul (Frac.ofInt 100))
  let a := n.natAbs
  (if n < 0 then "-" else "") ++ pyStrOfNat (a / 100) ++ "." ++
    (if a % 100 < 10 then "0" else "") ++ pyStrOfNat (a % 100)

/-- `f"{x:.2f}"` on a number (`ValueError` on anything else, as in
Python). -/
def fmtFixed2 (x : PyVal) : Except PyErr String :=
  match x.numVal with
  | some q => .ok (fixed2String q)
  | _ => .error .valueError

/-- `s.replace('"', '""')` on the characters of `s`. -/
def escapeQuotes (s : String) : String :=
  String.mk (s.data.foldr
    (fun c acc => if c = '"' then '"' :: '"' :: acc else c :: acc) [])

/-- `x.replace('"', '""')`: an `AttributeError` unless `x` is a
string. -/
def pyReplaceQuote : PyVal → Except PyErr String
  | .str s => .ok (escapeQuotes s)
  | _ => .error .attributeError

/-- Stable insertion into an ascending (w.r.t. `le`) list: a new element
goes after existing equal ones. -/
def stableInsert {A : Type} (le : A → A → Bool) (a : A) :
    List A → List A
  | [] => [a]
  | b :: t => if le b a then b :: stableInsert le a t else a :: b :: t

/-- A stable sort (insertion sort).  Python's `list.sort` is also stable,
and a stable sort's output under a total preorder is unique, so this
agrees with it. -/
def pySort {A : Type} (le : A → A → Bool) (l : List A) : List A :=
  l.foldl (fun acc a => stableInsert le a acc) []

/-- Split a string at commas (observation helper for the CSV
theorems). -/
def splitCommas (s : String) : List String :=
  (s.data.foldr
    (fun c acc =>
      if c = ',' then [] :: acc
      else (c :: acc.headD []) :: acc.tail) [[]]).map
    fun cs => String.mk cs

/-! ## Report generators (`src/envato_scrape/__init__.py`)

The two `inspect` commands read the products of the process-wide cache.
They are modelled as the list of lines written to standard output. -/

/-- A hashable Python value, normalised the way dict-key equality behaves
(`True`, `1` and `1.0` are the same key); containers are unhashable
(`TypeError` when used as a key). -/
inductive HKey where
  | noneK
  | num (q : Frac)
  | strK (s : String)
  deriving Repr, DecidableEq

/-- The dict key a value hashes to. -/
def PyVal.hkey : PyVal → Except PyErr HKey
  | .none => .ok .noneK
  | .bool b => .ok (.num (Frac.ofInt (if b then 1 else 0)))
  | .int n => .ok (.num (Frac.ofInt n))
  | .float q => .ok (.num q.reduce)
  | .str s => .ok (.strK s)
  | _ => .error .typeError

/-- Whether a stored dict key equals the probe key. -/
def keyMatches (k : PyVal) (hk : HKey) : Bool :=
  match k.hkey with
  | .ok h => h = hk
  | _ => false

/-- Per-classification accumulator of `_inspect_category_sale_count`
(lines 450–458).  `product_count` only ever receives `+= 1` from zero and
stays an integer; the other two accumulate untyped sums. -/
structure SaleStats where
  product_count : Int
  total_sales : PyVal
  total_revenue : PyVal

/-- Lookup in the `category_stats` dict. -/
def findStats (l : List (PyVal × SaleStats)) (hk : HKey) :
    Option SaleStats :=
  (l.find? fun e => keyMatches e.1 hk).map (·.2)

/-- Update in the `category_stats` dict (the stored key object — the first
classification value inserted — is kept, as in Python). -/
def setStats :
    List (PyVal × SaleStats) → HKey → SaleStats →
      List (PyVal × SaleStats)
  | [], _, _ => []
  | (k, v') :: t, hk, v =>
    if keyMatches k hk then (k, v) :: t else (k, v') :: setStats t hk v

/-- Grouping pass of `_inspect_category_sale_count` (lines 444–458):
products whose `site` equals `f"{site}.net"` are grouped by
`classification`; each group accumulates count, total sales and total
revenue (`number_of_sales * (float(price_cents) / 100.0)`). -/
def saleCountGroup (site : String) :
    List Product → List (PyVal × SaleStats) →
      Except PyErr (List (PyVal × SaleStats))
  | [], acc => .ok acc
  | p :: rest, acc =>
    let siteMatch : Bool :=
      match p.site with
      | .str s => s = site ++ ".net"
      | _ => false
    if siteMatch then do
      let hk ← p.classification.hkey
      let acc1 :=
        if (findStats acc hk).isSome then acc
        else acc ++ [(p.classification, ⟨0, .int 0, .int 0⟩)]
      let s0 := (findStats acc1 hk).getD ⟨0, .int 0, .int 0⟩
      let ts ← pyAdd s0.total_sales p.number_of_sales
      let term ← pyMul p.number_of_sales
        (← pyDiv (← pyFloat p.price_cents) (.float (Frac.ofInt 100)))
      let tr ← pyAdd s0.total_revenue term
      saleCountGroup site rest
        (setStats acc1 hk ⟨s0.product_count + 1, ts, tr⟩)
    else saleCountGroup site rest acc

/-- A row of the sale-count report before formatting (lines 461–474):
category, product count, total sales, average sales, average revenue —
and nothing else: the accumulated total revenue is used only to derive
the average, and no cached `Category.total_products` is consulted. -/
structure SaleRow where
  category : PyVal
  product_count : Int
  total_sales : PyVal
  average_sales : PyVal
  average_revenue : PyVal

/-- Second pass of `_inspect_category_sale_count` (lines 461–474): per
group, `total_sales / product_count if product_count > 0 else 0` and
`float(total_revenue) / float(product_count) if product_count > 0 else
0`. -/
def statsToRows :
    List (PyVal × SaleStats) → Except PyErr (List SaleRow)
  | [] => .ok []
  | (cat, s) :: rest => do
    let avgS ←
      if s.product_count > 0 then pyDiv s.total_sales (.int s.product_count)
      else pure (.int 0)
    let avgR ←
      if s.product_count > 0 then
        pyDiv (← pyFloat s.total_revenue) (← pyFloat (.int s.product_count))
      else pure (.int 0)
    let rows ← statsToRows rest
    .ok (⟨cat, s.product_count, s.total_sales, avgS, avgR⟩ :: rows)

/-- Numeric sort key of a value; the report sort keys (average revenue,
sales counts) are numbers whenever Python's comparison would not raise. -/
def sortKey (x : PyVal) : Frac := x.numVal.getD (Frac.ofInt 0)

/-- CSV row of `_inspect_category_sale_count` (lines 483–489): the
category is `.replace('"', '""')`-escaped and quoted; the numeric fields
are interpolated bare. -/
def saleCountRow (r : SaleRow) : Except PyErr String := do
  let category ← pyReplaceQuote r.category
  let totS ← pyFStr r.total_sales
  let avgS ← fmtFixed2 r.average_sales
  let avgR ← fmtFixed2 r.average_revenue
  .ok ("\"" ++ category ++ "\"," ++ pyStrOfInt r.product_count ++ "," ++
    totS ++ "," ++ avgS ++ "," ++ avgR)

/-- `_inspect_category_sale_count` (lines 439–489): header line, then one
CSV row per classification group, sorted descending by average revenue
(`list.sort` is stable, as is `pySort`). -/
def inspectCategorySaleCount (c : Cache) (site : String) :
    Except PyErr (List String) := do
  let stats ← saleCountGroup site (c.products.map (·.2)) []
  let results ← statsToRows stats
  let sorted := pySort (fun a b =>
    (sortKey b.average_revenue).le (sortKey a.average_revenue)) results
  let rows ← sorted.mapM saleCountRow
  .ok ("Category,Products,Total Sales,Average Sales,Average Revenue"
    :: rows)

/-- CSV row of `_inspect_category_head` (lines 528–543): `price_cents /
100` (true division), revenue `sales * price`; url, title and author are
escaped and quoted, sales/price/revenue interpolated bare. -/
def categoryHeadRow (p : Product) : Except PyErr String := do
  let price ← pyDiv p.price_cents (.int 100)
  let rev ← pyMul p.number_of_sales price
  let title ← pyReplaceQuote p.name
  let url ← pyReplaceQuote p.url
  let author ← pyReplaceQuote p.author_username
  let sales ← pyFStr p.number_of_sales
  let priceS ← fmtFixed2 price
  let revS ← fmtFixed2 rev
  .ok ("\"" ++ url ++ "\",\"" ++ title ++ "\"," ++ sales ++ "," ++
    priceS ++ "," ++ revS ++ ",\"" ++ author ++ "\"")

/-- `_inspect_category_head` (lines 492–543): filter to the site and the
exact classification, sort descending by `number_of_sales` (stable), take
the first `number` (the CLI default is 10; a negative `-n`, which Python
slicing would treat differently, is not modelled). -/
def inspectCategoryHead (c : Cache) (site category : String)
    (number : Nat) : Except PyErr (List String) := do
  let filtered := (c.products.map (·.2)).filter fun p =>
    (match p.site with
     | .str s => s = site ++ ".net"
     | _ => false) &&
    (match p.classification with
     | .str s => s = category
     | _ => false)
  let sorted := pySort (fun a b =>
    (sortKey b.number_of_sales).le (sortKey a.number_of_sales)) filtered
  let rows ← (sorted.take number).mapM categoryHeadRow
  .ok ("URL,Title,Sales,Price,Total Revenue,Author Username" :: rows)

/-! ## Crawl pagination (`src/envato_scrape/__init__.py` lines 649–686) -/

/-- The pages scheduled by `--all-pages` (line 651): `range(1, 61)`, i.e.
1 through 60. -/
def allPages : List Nat := List.range' 1 60

/-- One category's page loop (lines 668–685): each scheduled page is
requested through `search_products`; after a page yields no products the
loop breaks.  `search` maps a page number to the products the mocked API
returns; the result is the pages actually requested, in order. -/
def crawlPagesRequested (search : Nat → List Product) :
    List Nat → List Nat
  | [] => []
  | p :: rest =>
    if (search p).isEmpty then [p]
    else p :: crawlPagesRequested search rest

/-- The crawl over the selected categories (lines 666–685): every
category runs its own page loop to completion of the schedule or early
termination, independently of the others. -/
def crawlAll (search : Category → Nat → List Product)
    (cats : List Category) (pages : List Nat) :
    List (Category × List Nat) :=
  cats.map fun cat => (cat, crawlPagesRequested (search cat) pages)

/-! ## The API client (`src/envato_scrape/__init__.py` lines 278–342) -/

/-- A server response as the client loop sees it. -/
inductive HttpResp where
  /-- HTTP 429 with an optional `Retry-After` header value. -/
  | rateLimited (retryAfter : Option String)
  /-- A success status whose body parses as JSON `v`. -/
  | success (v : PyVal)
  /-- A success status whose body fails to parse
  (`json.JSONDecodeError` → `sys.exit(1)`, line 340). -/
  | badJson
  /-- Any other failure status or transport error
  (`raise_for_status` / `RequestException` → `sys.exit(1)`, line 338). -/
  | failure

/-- The outcome of `make_envato_api_call`. -/
inductive CallOutcome where
  | returns (v : PyVal)
  | exits

/-- The wait performed on a 429 (lines 294–320).  A present, truthy
`Retry-After` is parsed with `int(...)` inside a `try` whose
`except ValueError` also covers the `time.sleep(wait_time)` call —
so both an unparseable header and the `ValueError` a negative sleep
duration raises fall back to the 60-second wait; a missing (or empty,
hence falsy) header waits 60 seconds directly. -/
def sleepFor429 (retryAfter : Option String) : Int :=
  match retryAfter with
  | Option.none => 60
  | some s =>
    if s = "" then 60
    else
      match pyIntOfString s with
      | .ok n => if n < 0 then 60 else n
      | .error _ => 60

/-- The unbounded `while True` loop of `make_envato_api_call` (lines
289–342) run for at most `fuel` iterations against the server's response
sequence, accumulating the sleeps performed; `none` means the budget ran
out with the loop still retrying. -/
def apiCallLoop (resp : Nat → HttpResp) :
    Nat → Nat → List Int → Option (List Int × CallOutcome)
  | 0, _, _ => Option.none
  | fuel + 1, i, sleeps =>
    match resp i with
    | .rateLimited ra =>
      apiCallLoop resp fuel (i + 1) (sleeps ++ [sleepFor429 ra])
    | .success v => some (sleeps, .returns v)
    | .badJson => some (sleeps, .exits)
    | .failure => some (sleeps, .exits)

/-- `make_envato_api_call` against a response sequence, with a step
budget. -/
def make_envato_api_call (resp : Nat → HttpResp) (fuel : Nat) :
    Option (List Int × CallOutcome) :=
  apiCallLoop resp fuel 0 []

/-! ## Derived notions used by the theorems -/

/-- The all-defaults `Preview`, i.e. `Preview.from_dict({})`. -/
def defaultPreview : Preview :=
  ⟨.str "", .str "", .str "", .str "", .int 0, ⟨.int 0, .int 0, .int 0⟩⟩

/-- Well-formedness of the association lists modelling Python dicts:
keys are unique (true of every state an actual dict can hold). -/
def Cache.WF (c : Cache) : Prop :=
  (c.categories.map (·.1)).Nodup ∧
    (∀ sc ∈ c.categories, (sc.2.map (·.1)).Nodup) ∧
    (c.products.map (·.1)).Nodup

/-- Whether a value is a dict. -/
def PyVal.isDictB : PyVal → Bool
  | .dict _ => true
  | _ => false

/-- The dict entries of a value (`[]` when it is not a dict). -/
def PyVal.dictEntries : PyVal → List (String × PyVal)
  | .dict d => d
  | _ => []

/-- The integer content of a value (`0` when it is not an int). -/
def PyVal.intOr0 : PyVal → Int
  | .int n => n
  | _ => 0

/-- Modelled from the spec's contract ("a pure, total `from external map`
constructor that never fails on missing/extra keys, fills
type-appropriate defaults"): the total constructor for `Rating`. -/
def Rating.fromMapTotal (d : List (String × PyVal)) : Rating :=
  ⟨(alGet d "rating").getD (.float (Frac.ofInt 0)), (alGet d "count").getD (.int 0)⟩

/-- Modelled from the spec: the total constructor for `Length`. -/
def Length.fromMapTotal (d : List (String × PyVal)) : Length :=
  ⟨(alGet d "hours").getD (.int 0), (alGet d "minutes").getD (.int 0),
    (alGet d "seconds").getD (.int 0)⟩

/-- Modelled from the spec: the total constructor for `Preview`. -/
def Preview.fromMapTotal (d : List (String × PyVal)) : Preview :=
  ⟨(alGet d "icon_url").getD (.str ""), (alGet d "mp3_url").getD (.str ""),
    (alGet d "mp3_preview_waveform_url").getD (.str ""),
    (alGet d "mp3_preview_download_url").getD (.str ""),
    (alGet d "mp3_id").getD (.int 0),
    Length.fromMapTotal ((alGet d "length").getD (.dict [])).dictEntries⟩

/-- Modelled from the spec: the total constructor for `Product`, reading
previews from the nested `icon_with_audio_preview` key. -/
def Product.fromMapTotal (d : List (String × PyVal)) : Product :=
  ⟨((alGet d "id").getD (.int 0)).intOr0,
    (alGet d "name").getD (.str ""),
    (alGet d "description").getD (.str ""),
    (alGet d "description_html").getD (.str ""),
    (alGet d "site").getD (.str ""),
    (alGet d "classification").getD (.str ""),
    (alGet d "classification_url").getD (.str ""),
    (alGet d "price_cents").getD (.int 0),
    (alGet d "number_of_sales").getD (.int 0),
    (alGet d "author_username").getD (.str ""),
    (alGet d "author_url").getD (.str ""),
    (alGet d "author_image").getD (.str ""),
    (alGet d "url").getD (.str ""),
    (alGet d "summary").getD (.str ""),
    Rating.fromMapTotal ((alGet d "rating").getD (.dict [])).dictEntries,
    (alGet d "updated_at").getD (.str ""),
    (alGet d "published_at").getD (.str ""),
    (alGet d "trending").getD (.bool false),
    Preview.fromMapTotal
      ((alGet ((alGet d "previews").getD (.dict [])).dictEntries
          "icon_with_audio_preview").getD (.dict [])).dictEntries,
    (alGet d "attributes").getD (.list []),
    (alGet d "photo_attributes").getD (.list []),
    (alGet d "key_features").getD (.list []),
    (alGet d "image_urls").getD (.list []),
    (alGet d "tags").getD (.list []),
    (alGet d "discounts").getD (.list [])⟩

/-- The spec's invariant: every `Category` reachable from
`categories[site]` has a `path` equal to the key it is stored under. -/
def CatInvariant (c : Cache) : Prop :=
  ∀ sc ∈ c.categories, ∀ nc ∈ sc.2, nc.2.path = nc.1

/-- An attribute entry in the shape the spec describes: a map carrying
`name` and `value` keys. -/
def attrWF (a : PyVal) : Bool :=
  match a with
  | .dict d => (alGet d "name").isSome && (alGet d "value").isSome
  | _ => false

/-- Modelled from the spec ("returns the first value whose `name` field
matches, or an absence signal if none matches; first occurrence wins"):
the first-match scan, to be compared with `Product.get_attribute`. -/
def getAttributeSpec (attrs : List PyVal) (target : String) :
    Option PyVal :=
  (attrs.find? fun a =>
    match a with
    | .dict d =>
      match alGet d "name" with
      | some (.str s) => s = target
      | _ => false
    | _ => false).bind fun a =>
      match a with
      | .dict d => alGet d "value"
      | _ => Option.none

/-- A mutating cache operation. -/
inductive CacheOp where
  | addCat (site : String) (cat : Category)
  | addProd (p : Product)

/-- Run a sequence of mutating operations. -/
def applyOps : Cache → List CacheOp → Cache
  | c, [] => c
  | c, .addCat site cat :: ops => applyOps (c.add_category site cat) ops
  | c, .addProd p :: ops => applyOps (c.add_product p) ops

/-- Modelled from the amended claim: the wait performed per 429 — a
`Retry-After` parsing as a nonnegative integer is honoured, anything else
(absent, unparseable, negative) waits 60 seconds. -/
def retrySleepSpec (ra : Option String) : Int :=
  match ra with
  | some s =>
    match pyIntOfString s with
    | .ok n => if 0 ≤ n then n else 60
    | .error _ => 60
  | Option.none => 60

/-! ## Concrete data for counterexamples and witnesses -/

/-- A minimal cached product: on `themeforest.net`, classified `Music`,
with the given id, sales count and price in cents. -/
def mkMusicProduct (idn sales price : Int) : Product where
  id := idn
  name := .str "Track"
  description := .str ""
  description_html := .str ""
  site := .str "themeforest.net"
  classification := .str "Music"
  classification_url := .str ""
  price_cents := .int price
  number_of_sales := .int sales
  author_username := .str "alice"
  author_url := .str ""
  author_image := .str ""
  url := .str "http://example"
  summary := .str ""
  rating := ⟨.float (Frac.ofInt 0), .int 0⟩
  updated_at := .str ""
  published_at := .str ""
  trending := .bool false
  previews := defaultPreview
  attributes := .list []
  photo_attributes := .list []
  key_features := .list []
  image_urls := .list []
  tags := .list []
  discounts := .list []

/-- A product with non-default previews (distinguishes a round-trip). -/
def sampleProduct : Product :=
  { mkMusicProduct 5 10 500 with
      site := .str "audiojungle.net"
      previews := ⟨.str "http://icon", .str "http://mp3", .str "", .str "",
        .int 77, ⟨.int 0, .int 3, .int 30⟩⟩ }

/-- A small well-formed cache holding one category and one product. -/
def sampleCache : Cache :=
  ⟨[("audiojungle",
      [("music/ambient", ⟨"Ambient", "music/ambient", some 42⟩)])],
    [(5, sampleProduct)], true⟩

/-- The report scenario: two cached themeforest products, classification
`Music`, sales 10 and 20, prices 500 and 1000 cents. -/
def c4Cache : Cache :=
  ((Cache.init Option.none).add_product
      (mkMusicProduct 1 10 500)).add_product
    (mkMusicProduct 2 20 1000)

/-- A cached product whose name contains a literal double quote. -/
def c5Product : Product :=
  { mkMusicProduct 7 7 250 with
      name := .str "My \"Best\" Track"
      url := .str "http://u" }

/-- A one-product cache for the CSV-formatting theorems. -/
def c5Cache : Cache := (Cache.init Option.none).add_product c5Product

/-- A mocked per-page search: five products on page 1, none after. -/
def c6Search : Nat → List Product := fun p =>
  if p = 1 then List.replicate 5 (mkMusicProduct 1 10 500) else []

/-- A server answering 429 with `Retry-After: -1`, then succeeding. -/
def c7BadResp : Nat → HttpResp := fun i =>
  if i = 0 then .rateLimited (some "-1") else .success (.str "ok")

/-- A server answering 429 with `Retry-After: 2`, then succeeding. -/
def c7OkResp : Nat → HttpResp := fun i =>
  if i = 0 then .rateLimited (some "2") else .success (.str "body")

/-- An attribute list with a duplicated name (first occurrence should
win). -/
def dupAttrs : List PyVal :=
  [.dict [("name", .str "a"), ("value", .int 1)],
    .dict [("name", .str "a"), ("value", .int 2)],
    .dict [("name", .str "b"), ("value", .int 3)]]

/-- A product carrying `dupAttrs`. -/
def dupAttrProduct : Product :=
  { mkMusicProduct 9 0 0 with attributes := .list dupAttrs }

/-! ## Helper lemmas: decimal numerals -/

theorem digitVal_digitChar {d : Nat} (h : d < 10) :
    digitVal (digitChar d) = some d := by
  interval_cases d <;> rfl

theorem digitVals_map (l : List Nat) (h : ∀ d ∈ l, d < 10) :
    digitVals (l.map digitChar) = some l := by
  induction l with
  | nil => rfl
  | cons d t ih =>
    have hd : d < 10 := h d (List.mem_cons_self d t)
    have ht := ih fun x hx => h x (List.mem_cons_of_mem _ hx)
    simp [digitVals, digitVal_digitChar hd, ht]

theorem parseDigits_eq_of_ne_nil {cs : List Char} (h : cs ≠ []) :
    parseDigits cs =
      (digitVals cs).map fun ds => Nat.ofDigits 10 ds.reverse := by
  cases cs with
  | nil => exact absurd rfl h
  | cons c t => rfl

theorem parseDigits_revmap (l : List Nat) (hl : l ≠ [])
    (h10 : ∀ d ∈ l, d < 10) :
    parseDigits (l.reverse.map digitChar) = some (Nat.ofDigits 10 l) := by
  have hne : l.reverse.map digitChar ≠ [] := by simpa using hl
  rw [parseDigits_eq_of_ne_nil hne,
    digitVals_map l.reverse fun d hd => h10 d (List.mem_reverse.mp hd)]
  simp

theorem natDigitsAux_eq :
    ∀ fuel n : Nat, n ≤ fuel → natDigitsAux fuel n = Nat.digits 10 n := by
  intro fuel
  induction fuel with
  | zero =>
    intro n hn
    interval_cases n
    simp [natDigitsAux, Nat.digits_zero]
  | succ f ih =>
    intro n hn
    match n with
    | 0 => simp [natDigitsAux, Nat.digits_zero]
    | m + 1 =>
      have hdiv : (m + 1) / 10 ≤ f := by
        have := Nat.div_lt_self (Nat.succ_pos m) (by norm_num : 1 < 10)
        omega
      rw [natDigitsAux, ih _ hdiv,
        Nat.digits_def' (by norm_num : 1 < 10) (Nat.succ_pos m)]

theorem natDigits_eq (n : Nat) : natDigits n = Nat.digits 10 n :=
  natDigitsAux_eq n n le_rfl

theorem parseDigits_pyStrOfNat (n : Nat) :
    parseDigits (pyStrOfNat n).data = some n := by
  by_cases hn : n = 0
  · subst hn; rfl
  · have hdata :
        (pyStrOfNat n).data = (Nat.digits 10 n).reverse.map digitChar := by
      simp [pyStrOfNat, hn, natDigits_eq]
    rw [hdata,
      parseDigits_revmap _ (Nat.digits_ne_nil_iff_ne_zero.mpr hn)
        (fun d hd => Nat.digits_lt_base (by norm_num) hd),
      Nat.ofDigits_digits]

theorem pyStrOfNat_head_digit (n : Nat) :
    ∃ d t, d < 10 ∧ (pyStrOfNat n).data = digitChar d :: t := by
  by_cases hn : n = 0
  · exact ⟨0, [], by norm_num, by subst hn; rfl⟩
  · have hne : (Nat.digits 10 n).reverse ≠ [] := by
      simpa using Nat.digits_ne_nil_iff_ne_zero.mpr hn
    obtain ⟨d, l, hdl⟩ := List.exists_cons_of_ne_nil hne
    refine ⟨d, l.map digitChar, ?_, ?_⟩
    · exact Nat.digits_lt_base (by norm_num)
        (List.mem_reverse.mp (hdl ▸ List.mem_cons_self d l))
    · simp [pyStrOfNat, hn, natDigits_eq, hdl]

theorem pyIntOfString_pyStrOfNat (n : Nat) :
    pyIntOfString (pyStrOfNat n) = .ok (n : Int) := by
  obtain ⟨d, t, hd10, hdata⟩ := pyStrOfNat_head_digit n
  have h1 : digitChar d ≠ '-' := by interval_cases d <;> decide
  have h2 : digitChar d ≠ '+' := by interval_cases d <;> decide
  have hp := parseDigits_pyStrOfNat n
  rw [hdata] at hp
  rw [pyIntOfString, hdata, pyIntOfChars]
  simp [h1, h2, hp]

theorem pyIntOfString_pyStrOfInt (n : Int) :
    pyIntOfString (pyStrOfInt n) = .ok n := by
  cases n with
  | ofNat m => exact pyIntOfString_pyStrOfNat m
  | negSucc m =>
    have hp := parseDigits_pyStrOfNat (m + 1)
    have hdata : (pyStrOfInt (Int.negSucc m)).data =
        '-' :: (pyStrOfNat (m + 1)).data := by
      simp [pyStrOfInt]
    rw [pyIntOfString, hdata, pyIntOfChars]
    simp [hp, Int.negSucc_eq]

/-! ## Helper lemmas: association lists -/

theorem alGet_cons {α β : Type} [DecidableEq α] (p : α × β)
    (t : List (α × β)) (k : α) :
    alGet (p :: t) k = if p.1 = k then some p.2 else alGet t k := by
  by_cases h : p.1 = k
  · simp [alGet, List.find?_cons_of_pos, h]
  · simp [alGet, List.find?_cons_of_neg, h]

theorem alSet_of_alGet_none {α β : Type} [DecidableEq α]
    {l : List (α × β)} {k : α} (h : alGet l k = Option.none) (v : β) :
    alSet l k v = l ++ [(k, v)] := by
  induction l with
  | nil => rfl
  | cons p t ih =>
    rw [alGet_cons] at h
    by_cases hpk : p.1 = k
    · simp [hpk] at h
    · simp [alSet, hpk, ih (by simpa [hpk] using h)]

theorem alSet_of_alGet_self {α β : Type} [DecidableEq α] :
    ∀ {l : List (α × β)} {k : α} {v : β},
      alGet l k = some v → alSet l k v = l := by
  intro l
  induction l with
  | nil => intro k v h; simp [alGet] at h
  | cons p t ih =>
    intro k v h
    rw [alGet_cons] at h
    by_cases hpk : p.1 = k
    · simp [hpk] at h
      cases p with
      | mk pk pv => simp_all [alSet]
    · simp [hpk] at h
      simp [alSet, hpk, ih h]

theorem alGet_alSet_self {α β : Type} [DecidableEq α]
    (l : List (α × β)) (k : α) (v : β) :
    alGet (alSet l k v) k = some v := by
  induction l with
  | nil => simp [alSet, alGet_cons]
  | cons p t ih =>
    by_cases hpk : p.1 = k
    · simp [alSet, hpk, alGet_cons]
    · simp [alSet, hpk, alGet_cons, ih]

theorem alSet_alSet {α β : Type} [DecidableEq α]
    (l : List (α × β)) (k : α) (x v : β) :
    alSet (alSet l k x) k v = alSet l k v := by
  induction l with
  | nil => simp [alSet]
  | cons p t ih =>
    by_cases hpk : p.1 = k
    · simp [alSet, hpk]
    · simp [alSet, hpk, ih]

theorem mem_alSet {α β : Type} [DecidableEq α] {x : α × β}
    {l : List (α × β)} {k : α} {v : β} (h : x ∈ alSet l k v) :
    x = (k, v) ∨ x ∈ l := by
  induction l with
  | nil => simpa [alSet] using h
  | cons p t ih =>
    by_cases hpk : p.1 = k
    · rw [alSet] at h
      simp only [hpk, if_pos] at h
      rcases List.mem_cons.mp h with h | h
      · exact Or.inl h
      · exact Or.inr (List.mem_cons_of_mem _ h)
    · rw [alSet] at h
      simp only [hpk, if_neg, not_false_iff] at h
      rcases List.mem_cons.mp h with h | h
      · exact Or.inr (h ▸ List.mem_cons_self p t)
      · rcases ih h with h | h
        · exact Or.inl h
        · exact Or.inr (List.mem_cons_of_mem _ h)

theorem alGet_append_single_ne {α β : Type} [DecidableEq α]
    {l : List (α × β)} {j k : α} (hj : j ≠ k) (v : β) :
    alGet (l ++ [(k, v)]) j = alGet l j := by
  induction l with
  | nil => simp [alGet_cons, alGet, Ne.symm hj]
  | cons p t ih => simp [alGet_cons, ih]

/-! ## Helper lemmas: record round-trips -/

theorem rating_roundtrip (r : Rating) :
    Rating.from_dict r.serialize = .ok r := rfl

theorem length_roundtrip (l : Length) :
    Length.from_dict l.serialize = .ok l := rfl

theorem preview_roundtrip (p : Preview) :
    Preview.from_dict p.serialize = .ok p := rfl

theorem category_roundtrip (c : Category) :
    Category.from_dict c.serialize = .ok c := by
  cases c with
  | mk name path tp => cases tp <;> rfl

theorem product_roundtrip (p : Product) :
    Product.from_dict p.serialize =
      .ok { p with previews := defaultPreview } := rfl

/-! ## Helper lemmas: loading a serialized store -/

theorem loadCatsInner_serialized :
    ∀ (entries : List (String × Category)) (c : Cache) (site : String)
      (acc : List (String × Category)),
      alGet c.categories site = some acc →
      (∀ nc ∈ entries, alGet acc nc.1 = Option.none) →
      (entries.map (·.1)).Nodup →
      loadCatsInner c site (entries.map fun nc => (nc.1, nc.2.serialize)) =
        ({ c with categories := alSet c.categories site (acc ++ entries) },
          false) := by
  intro entries
  induction entries with
  | nil =>
    intro c site acc hacc _ _
    simp [loadCatsInner, alSet_of_alGet_self hacc]
  | cons nc rest ih =>
    intro c site acc hacc hfresh hnodup
    obtain ⟨name, cat⟩ := nc
    have hfresh0 : alGet acc name = Option.none :=
      hfresh (name, cat) (List.mem_cons_self _ _)
    have hnd : name ∉ rest.map (·.1) ∧ (rest.map (·.1)).Nodup :=
      List.nodup_cons.mp (by simpa using hnodup)
    simp only [List.map_cons, loadCatsInner, category_roundtrip, hacc,
      Option.getD_some, alSet_of_alGet_none hfresh0]
    rw [ih _ site (acc ++ [(name, cat)]) (alGet_alSet_self _ _ _)
      (fun nc' hnc' => by
        have hne : nc'.1 ≠ name := by
          intro h
          exact hnd.1 (h ▸ List.mem_map_of_mem (·.1) hnc')
        rw [alGet_append_single_ne hne]
        exact hfresh nc' (List.mem_cons_of_mem _ hnc'))
      hnd.2]
    simp [alSet_alSet]

theorem loadCatsOuter_serialized :
    ∀ (cats : List (String × List (String × Category))) (c : Cache),
      (∀ sc ∈ cats, alGet c.categories sc.1 = Option.none) →
      (cats.map (·.1)).Nodup →
      (∀ sc ∈ cats, (sc.2.map (·.1)).Nodup) →
      loadCatsOuter c
          (cats.map fun sc =>
            (sc.1, PyVal.dict (sc.2.map fun nc => (nc.1, nc.2.serialize)))) =
        ({ c with categories := c.categories ++ cats }, false) := by
  intro cats
  induction cats with
  | nil => intro c _ _ _; simp [loadCatsOuter]
  | cons sc rest ih =>
    intro c hfresh hnodup hinner
    obtain ⟨site, inner⟩ := sc
    have hfresh0 : alGet c.categories site = Option.none :=
      hfresh (site, inner) (List.mem_cons_self _ _)
    have hnd : site ∉ rest.map (·.1) ∧ (rest.map (·.1)).Nodup :=
      List.nodup_cons.mp (by simpa using hnodup)
    simp only [List.map_cons, loadCatsOuter]
    rw [loadCatsInner_serialized inner _ site []
      (by rw [alGet_alSet_self]) (by intros; rfl)
      (hinner (site, inner) (List.mem_cons_self _ _))]
    simp only [List.nil_append]
    rw [alSet_alSet, alSet_of_alGet_none hfresh0]
    rw [ih _
      (fun sc' hsc' => by
        have hne : sc'.1 ≠ site := by
          intro h
          exact hnd.1 (h ▸ List.mem_map_of_mem (·.1) hsc')
        show alGet (c.categories ++ [(site, inner)]) sc'.1 = Option.none
        rw [alGet_append_single_ne hne]
        exact hfresh sc' (List.mem_cons_of_mem _ hsc'))
      hnd.2 (fun sc' hsc' => hinner sc' (List.mem_cons_of_mem _ hsc'))]
    simp

theorem loadProds_serialized :
    ∀ (prods : List (Int × Product)) (c : Cache),
      (∀ ip ∈ prods, alGet c.products ip.1 = Option.none) →
      (prods.map (·.1)).Nodup →
      loadProds c (prods.map fun ip => (pyStrOfInt ip.1, ip.2.serialize)) =
        ({ c with
            products := c.products ++
              prods.map fun ip =>
                (ip.1, { ip.2 with previews := defaultPreview }) },
          false) := by
  intro prods
  induction prods with
  | nil => intro c _ _; simp [loadProds]
  | cons ip rest ih =>
    intro c hfresh hnodup
    obtain ⟨i, p⟩ := ip
    have hfresh0 : alGet c.products i = Option.none :=
      hfresh (i, p) (List.mem_cons_self _ _)
    have hnd : i ∉ rest.map (·.1) ∧ (rest.map (·.1)).Nodup :=
      List.nodup_cons.mp (by simpa using hnodup)
    simp only [List.map_cons, loadProds, product_roundtrip,
      pyIntOfString_pyStrOfInt, alSet_of_alGet_none hfresh0]
    rw [ih _
      (fun ip' hip' => by
        have hne : ip'.1 ≠ i := by
          intro h
          exact hnd.1 (h ▸ List.mem_map_of_mem (·.1) hip')
        rw [alGet_append_single_ne hne]
        exact hfresh ip' (List.mem_cons_of_mem _ hip'))
      hnd.2]
    simp

/-- The `loadFrom` dispatch on a stored top-level payload of the shape
`serialize` produces. -/
theorem loadFrom_stored_dicts (c₀ : Cache) (CM PM : List (String × PyVal)) :
    Cache.loadFrom c₀
        (some (.stored
          (.dict [("categories", .dict CM), ("products", .dict PM)]))) =
      (match loadCatsOuter c₀ CM with
       | (c1, true) => c1
       | (c1, false) => (loadProds c1 PM).1) := rfl

/-- Loading the serialized image of a well-formed cache into a fresh
empty cache reproduces the categories exactly and the products up to the
previews default. -/
theorem init_load_save (c : Cache) (h : c.WF) :
    Cache.init (some (.stored c.save)) =
      ⟨c.categories,
        c.products.map fun ip =>
          (ip.1, { ip.2 with previews := defaultPreview }),
        false⟩ := by
  obtain ⟨h1, h2, h3⟩ := h
  have hcats := loadCatsOuter_serialized c.categories ⟨[], [], false⟩
    (by intros; rfl) h1 h2
  have hprods := loadProds_serialized c.products ⟨c.categories, [], false⟩
    (by intros; rfl) h3
  rw [Cache.init, Cache.save, Cache.serializeStore, loadFrom_stored_dicts,
    hcats]
  show (loadProds ⟨c.categories, [], false⟩
      (c.products.map fun ip => (pyStrOfInt ip.1, ip.2.serialize))).1 = _
  rw [hprods]
  rfl

/-! ## Helper lemmas: evaluation of the fallible constructors -/

theorem category_from_dict_eq (d : List (String × PyVal)) :
    Category.from_dict (.dict d) =
      (PyVal.getItem (.dict d) "name").bind fun v1 =>
        v1.asStr.bind fun name =>
          (PyVal.getItem (.dict d) "path").bind fun v2 =>
            v2.asStr.bind fun path =>
              ((alGet d "total_products").getD .none).asOptInt.bind fun tp =>
                .ok ⟨name, path, tp⟩ := rfl

theorem preview_from_dict_eq (d : List (String × PyVal)) :
    Preview.from_dict (.dict d) =
      (Length.from_dict ((alGet d "length").getD (.dict []))).bind
        fun length =>
          .ok ⟨(alGet d "icon_url").getD (.str ""),
            (alGet d "mp3_url").getD (.str ""),
            (alGet d "mp3_preview_waveform_url").getD (.str ""),
            (alGet d "mp3_preview_download_url").getD (.str ""),
            (alGet d "mp3_id").getD (.int 0), length⟩ := rfl

theorem product_from_dict_eq (d : List (String × PyVal)) :
    Product.from_dict (.dict d) =
      ((alGet d "id").getD (.int 0)).asInt.bind fun id =>
        (Rating.from_dict ((alGet d "rating").getD (.dict []))).bind
          fun rating =>
            (PyVal.get ((alGet d "previews").getD (.dict []))
                "icon_with_audio_preview" (.dict [])).bind fun pin =>
              (Preview.from_dict pin).bind fun previews =>
                .ok ⟨id, (alGet d "name").getD (.str ""),
                  (alGet d "description").getD (.str ""),
                  (alGet d "description_html").getD (.str ""),
                  (alGet d "site").getD (.str ""),
                  (alGet d "classification").getD (.str ""),
                  (alGet d "classification_url").getD (.str ""),
                  (alGet d "price_cents").getD (.int 0),
                  (alGet d "number_of_sales").getD (.int 0),
                  (alGet d "author_username").getD (.str ""),
                  (alGet d "author_url").getD (.str ""),
                  (alGet d "author_image").getD (.str ""),
                  (alGet d "url").getD (.str ""),
                  (alGet d "summary").getD (.str ""), rating,
                  (alGet d "updated_at").getD (.str ""),
                  (alGet d "published_at").getD (.str ""),
                  (alGet d "trending").getD (.bool false), previews,
                  (alGet d "attributes").getD (.list []),
                  (alGet d "photo_attributes").getD (.list []),
                  (alGet d "key_features").getD (.list []),
                  (alGet d "image_urls").getD (.list []),
                  (alGet d "tags").getD (.list []),
                  (alGet d "discounts").getD (.list [])⟩ := rfl

theorem preview_from_map (d : List (String × PyVal))
    (he : ∃ e, (alGet d "length").getD (.dict []) = .dict e) :
    Preview.from_dict (.dict d) = .ok (Preview.fromMapTotal d) := by
  obtain ⟨e, he⟩ := he
  rw [preview_from_dict_eq]
  simp only [Preview.fromMapTotal]
  rw [he]
  rfl

theorem except_bind_ok {ε α β : Type} (a : α) (f : α → Except ε β) :
    (Except.ok (ε := ε) a).bind f = f a := rfl

theorem bindM_ok {ε α β : Type} (a : α) (f : α → Except ε β) :
    (Except.ok a : Except ε α) >>= f = f a := rfl

theorem product_from_map (d : List (String × PyVal))
    (hid : ∃ n, (alGet d "id").getD (.int 0) = .int n)
    (hrating : ∃ e, (alGet d "rating").getD (.dict []) = .dict e)
    (hpreviews : ∃ e1 e2,
      (alGet d "previews").getD (.dict []) = .dict e1 ∧
        (alGet e1 "icon_with_audio_preview").getD (.dict []) = .dict e2 ∧
        ∃ e3, (alGet e2 "length").getD (.dict []) = .dict e3) :
    Product.from_dict (.dict d) = .ok (Product.fromMapTotal d) := by
  obtain ⟨n, hn⟩ := hid
  obtain ⟨er, hr⟩ := hrating
  obtain ⟨e1, e2, h1, h2, h3⟩ := hpreviews
  rw [product_from_dict_eq]
  simp only [Product.fromMapTotal]
  rw [hn, hr, h1]
  simp only [PyVal.dictEntries]
  rw [h2]
  rw [show PyVal.get (PyVal.dict e1) "icon_with_audio_preview" (.dict []) =
    Except.ok ((alGet e1 "icon_with_audio_preview").getD (.dict []))
    from rfl]
  rw [h2]
  rw [show (PyVal.int n).asInt = (Except.ok n : Except PyErr Int) from rfl,
    except_bind_ok]
  rw [show Rating.from_dict (.dict er) =
    (.ok (Rating.fromMapTotal er) : Except PyErr Rating) from rfl,
    except_bind_ok, except_bind_ok]
  rw [preview_from_map e2 h3, except_bind_ok]
  rfl

/-! ## Claim C1 -/

/-- **C1, counterexample.**  For a product with a non-default previews
record, `from_dict` after `serialize` does not reproduce the record:
`serialize` writes the previews flat under `"previews"` while `from_dict`
reads them from `previews["icon_with_audio_preview"]`, so the round-trip
resets previews to defaults. -/
theorem claim_C1_counterexample :
    Product.from_dict (Product.serialize sampleProduct) ≠
      .ok sampleProduct := by
  intro h
  have hmp : (Product.from_dict (Product.serialize sampleProduct)).map
      (fun q => q.previews.mp3_id) = .ok (.int 0) := rfl
  rw [h] at hmp
  simp [sampleProduct, Except.map] at hmp

/-- **C1** (amended).  Serialization round-trips are exact for `Rating`,
`Length`, `Preview` and `Category`, and for every recognized field of
`Product` except `previews`: `from_dict` reads previews from the nested
`icon_with_audio_preview` key that `serialize` does not write, so a
round-trip resets them to the all-defaults `Preview`.  Consequently
`save()` followed by a fresh construction-time `load()` reproduces the
categories map exactly and the products map with every product's previews
defaulted (keys included, via `str`/`int` on the product ids). -/
theorem claim_C1_save_load_roundtrip :
    (∀ r : Rating, Rating.from_dict r.serialize = .ok r) ∧
    (∀ l : Length, Length.from_dict l.serialize = .ok l) ∧
    (∀ p : Preview, Preview.from_dict p.serialize = .ok p) ∧
    (∀ c : Category, Category.from_dict c.serialize = .ok c) ∧
    (∀ p : Product,
      Product.from_dict p.serialize =
        .ok { p with previews := defaultPreview }) ∧
    (∀ c : Cache, c.WF →
      Cache.init (some (.stored c.save)) =
        ⟨c.categories,
          c.products.map fun ip =>
            (ip.1, { ip.2 with previews := defaultPreview }),
          false⟩) :=
  ⟨rating_roundtrip, length_roundtrip, preview_roundtrip,
    category_roundtrip, product_roundtrip, init_load_save⟩

/-- **C1, witness.**  The save/load round-trip evaluated on a concrete
well-formed cache. -/
theorem claim_C1_save_load_roundtrip_witness :
    Cache.init (some (.stored sampleCache.save)) =
      ⟨[("audiojungle",
          [("music/ambient", ⟨"Ambient", "music/ambient", some 42⟩)])],
        [(5, { sampleProduct with previews := defaultPreview })],
        false⟩ :=
  (claim_C1_save_load_roundtrip.2.2.2.2.2 sampleCache
    (by refine ⟨?_, ?_, ?_⟩ <;> decide)).trans rfl

/-! ## Claim C2 -/

/-- **C2, counterexample.**  `Category.from_dict` is not total on maps
with missing keys: on the empty map, `data["name"]` raises `KeyError`. -/
theorem claim_C2_counterexample :
    Category.from_dict (.dict []) = .error (.keyError "name") := rfl

/-- **C2** (amended).  The `from_dict` constructors of `Rating`, `Length`,
`Preview` and `Product` never fail on maps with missing or extra keys,
substituting the type-appropriate default for every missing recognized
key (agreeing with the total default-filling constructors
`.fromMapTotal`), provided the nested-record keys (`rating`, `previews`,
`previews["icon_with_audio_preview"]`, `length`), where present, hold
maps — in Python their values receive a `.get` call — and (a restriction
of this typed model) a present `id` is an integer.  `Category.from_dict`
is the exception: it raises `KeyError` on a missing `name` (or `path`)
and only fills a default for `total_products`. -/
theorem claim_C2_from_map_totality :
    (∀ d, Rating.from_dict (.dict d) = .ok (Rating.fromMapTotal d)) ∧
    (∀ d, Length.from_dict (.dict d) = .ok (Length.fromMapTotal d)) ∧
    (∀ d, (∃ e, (alGet d "length").getD (.dict []) = .dict e) →
      Preview.from_dict (.dict d) = .ok (Preview.fromMapTotal d)) ∧
    (∀ d, (∃ n, (alGet d "id").getD (.int 0) = .int n) →
      (∃ e, (alGet d "rating").getD (.dict []) = .dict e) →
      (∃ e1 e2, (alGet d "previews").getD (.dict []) = .dict e1 ∧
        (alGet e1 "icon_with_audio_preview").getD (.dict []) = .dict e2 ∧
        ∃ e3, (alGet e2 "length").getD (.dict []) = .dict e3) →
      Product.from_dict (.dict d) = .ok (Product.fromMapTotal d)) ∧
    (∀ d, alGet d "name" = Option.none →
      Category.from_dict (.dict d) = .error (.keyError "name")) ∧
    (∀ d nm pth tp, alGet d "name" = some (.str nm) →
      alGet d "path" = some (.str pth) →
      ((alGet d "total_products").getD .none).asOptInt = .ok tp →
      Category.from_dict (.dict d) = .ok ⟨nm, pth, tp⟩) := by
  refine ⟨fun d => rfl, fun d => rfl, preview_from_map, product_from_map,
    ?_, ?_⟩
  · intro d h
    rw [category_from_dict_eq]
    simp only [PyVal.getItem]
    rw [h]
    rfl
  · intro d nm pth tp hn hp htp
    rw [category_from_dict_eq]
    simp only [PyVal.getItem]
    rw [hn, hp, htp]
    rfl

/-- **C2, witness.**  `Product.from_dict` on a map that misses every
recognized key and carries an extra one. -/
theorem claim_C2_from_map_totality_witness :
    Product.from_dict (.dict [("junk", .int 9)]) =
      .ok (Product.fromMapTotal [("junk", .int 9)]) :=
  claim_C2_from_map_totality.2.2.2.1 [("junk", .int 9)] ⟨0, rfl⟩ ⟨[], rfl⟩
    ⟨[], [], rfl, rfl, [], rfl⟩

/-! ## Claim C3 -/

/-- The `loadFrom` dispatch on an arbitrary stored dict. -/
theorem loadFrom_stored_dict_eq (c : Cache) (d : List (String × PyVal)) :
    Cache.loadFrom c (some (.stored (.dict d))) =
      (match (alGet d "categories").getD (.dict []) with
       | .dict centries =>
         (match loadCatsOuter c centries with
          | (c1, true) => c1
          | (c1, false) =>
            match (alGet d "products").getD (.dict []) with
            | .dict pentries => (loadProds c1 pentries).1
            | _ => c1)
       | _ => c) := rfl

/-- **C3, counterexample.**  A stored payload whose schema fails midway
(`{"categories": {"s": {"k": {}}}}`: the category record misses `name`)
is caught and reported, but the mutation already performed —
`self.categories["s"] = {}` — survives: the post-call categories map is
`{"s": {}}`, not the pre-call empty map. -/
theorem claim_C3_counterexample :
    (Cache.loadFrom ⟨[], [], false⟩
        (some (.stored (.dict [("categories",
          .dict [("s", .dict [("k", .dict [])])])])))).categories =
        [("s", [])] ∧
      ([("s", [])] : List (String × List (String × Category))) ≠ [] :=
  ⟨rfl, by simp⟩

/-- **C3** (amended).  `load()` catches every failure and reports it as a
non-fatal warning (in the model it is a total function), and it leaves
the cache exactly at its pre-call state when the failure occurs before
deserialization begins: a missing file, a file `pickle.load` rejects, a
non-dict top-level payload, or a non-dict `categories` value.  A schema
mismatch that strikes after deserialization has begun, however, leaves
the partial mutations behind (see the counterexample). -/
theorem claim_C3_load_failure_atomicity :
    (∀ c : Cache, c.loadFrom Option.none = c) ∧
    (∀ c : Cache, c.loadFrom (some .corrupt) = c) ∧
    (∀ (c : Cache) (v : PyVal), v.isDictB = false →
      c.loadFrom (some (.stored v)) = c) ∧
    (∀ (c : Cache) (d : List (String × PyVal)) (w : PyVal),
      alGet d "categories" = some w → w.isDictB = false →
      c.loadFrom (some (.stored (.dict d))) = c) := by
  refine ⟨fun c => rfl, fun c => rfl, ?_, ?_⟩
  · intro c v hv
    cases v <;> first | rfl | simp [PyVal.isDictB] at hv
  · intro c d w hw hv
    rw [loadFrom_stored_dict_eq, hw]
    cases w <;> first | rfl | simp [PyVal.isDictB] at hv

/-- **C3, witness.**  A non-dict payload leaves a nonempty cache
untouched. -/
theorem claim_C3_load_failure_atomicity_witness :
    Cache.loadFrom sampleCache (some (.stored (.str "junk"))) =
      sampleCache :=
  claim_C3_load_failure_atomicity.2.2.1 sampleCache (.str "junk") rfl

/-! ## Claim C8 -/

theorem loadCatsInner_dirty :
    ∀ (entries : List (String × PyVal)) (c : Cache) (site : String),
      (loadCatsInner c site entries).1.dirty = c.dirty := by
  intro entries
  induction entries with
  | nil => intro c site; rfl
  | cons e rest ih =>
    intro c site
    obtain ⟨name, cd⟩ := e
    rcases hcd : Category.from_dict cd with err | cat
    · simp [loadCatsInner, hcd]
    · simp only [loadCatsInner, hcd]
      exact ih _ site

theorem loadCatsOuter_dirty :
    ∀ (entries : List (String × PyVal)) (c : Cache),
      (loadCatsOuter c entries).1.dirty = c.dirty := by
  intro entries
  induction entries with
  | nil => intro c; rfl
  | cons e rest ih =>
    intro c
    obtain ⟨site, catsVal⟩ := e
    rcases catsVal with _ | b | n | q | s | xs | inner <;> try rfl
    simp only [loadCatsOuter]
    rcases hin : loadCatsInner
        { c with categories := alSet c.categories site [] } site inner
      with ⟨c2, b⟩
    have h2 : c2.dirty = c.dirty := by
      have h := loadCatsInner_dirty inner
        { c with categories := alSet c.categories site [] } site
      rw [hin] at h
      exact h
    cases b
    · exact (ih c2).trans h2
    · exact h2

theorem loadProds_dirty :
    ∀ (entries : List (String × PyVal)) (c : Cache),
      (loadProds c entries).1.dirty = c.dirty := by
  intro entries
  induction entries with
  | nil => intro c; rfl
  | cons e rest ih =>
    intro c
    obtain ⟨pid, pd⟩ := e
    rcases hpd : Product.from_dict pd with err | p
    · simp [loadProds, hpd]
    · rcases hpi : pyIntOfString pid with err | n
      · simp [loadProds, hpd, hpi]
      · simp only [loadProds, hpd, hpi]
        exact ih _

theorem loadFrom_dirty (c : Cache) (f : Option PickleFile) :
    (c.loadFrom f).dirty = c.dirty := by
  rcases f with _ | pf
  · rfl
  rcases pf with _ | v
  · rfl
  rcases v with _ | b | n | q | s | xs | d <;> try rfl
  rw [loadFrom_stored_dict_eq]
  rcases hg : (alGet d "categories").getD (.dict [])
    with _ | b | n | q | s | xs | centries <;> try rfl
  show (match loadCatsOuter c centries with
       | (c1, true) => c1
       | (c1, false) =>
         match (alGet d "products").getD (.dict []) with
         | .dict pentries => (loadProds c1 pentries).1
         | _ => c1).dirty = c.dirty
  rcases ho : loadCatsOuter c centries with ⟨c1, b⟩
  have h1 : c1.dirty = c.dirty := by
    have h := loadCatsOuter_dirty centries c
    rw [ho] at h
    exact h
  cases b
  · show (match (alGet d "products").getD (.dict []) with
         | .dict pentries => (loadProds c1 pentries).1
         | _ => c1).dirty = c.dirty
    rcases hp : (alGet d "products").getD (.dict [])
      with _ | b2 | n2 | q2 | s2 | xs2 | pentries <;>
      first
        | exact h1
        | exact (loadProds_dirty _ c1).trans h1
  · exact h1

theorem applyOps_dirty (ops : List CacheOp) :
    ∀ c : Cache, (applyOps c ops).dirty = (c.dirty || !ops.isEmpty) := by
  induction ops with
  | nil => intro c; simp [applyOps]
  | cons op rest ih =>
    intro c
    cases op with
    | addCat site cat =>
      rw [applyOps, ih]
      simp [Cache.add_category]
    | addProd p =>
      rw [applyOps, ih]
      simp [Cache.add_product]

theorem exitHook_isSome (c : Cache) :
    (Cache.exitHook c).2.isSome = c.dirty := by
  cases hd : c.dirty <;>
    simp [Cache.exitHook, Cache.maybe_save, hd]

/-- **C8, counterexample.**  The `Cache` class defined in `__init__.py` —
the one the CLI's global `cache` instantiates — registers `save`, not
`maybe_save`, with `atexit` (line 204), so after a construction with no
mutating operation its exit hook still writes the persistence file. -/
theorem claim_C8_counterexample :
    (initModuleExitHook (Cache.init Option.none)).2.isSome = true := rfl

/-- **C8** (amended).  `cache.py`'s `Cache` registers `maybe_save`, which
writes the persistence file iff the dirty flag is set, and the flag after
construction-time `load()` followed by a sequence of mutating operations
is set iff the sequence is nonempty — so for that class the hook writes
iff some `add_category`/`add_product` occurred since the load.  However
the CLI's actual cache, the superseded `Cache` class in `__init__.py`,
registers plain `save`: its exit hook writes unconditionally. -/
theorem claim_C8_dirty_flag_exit_hook :
    (∀ c : Cache, (Cache.exitHook c).2.isSome = c.dirty) ∧
    (∀ (f : Option PickleFile) (ops : List CacheOp),
      (Cache.exitHook (applyOps (Cache.init f) ops)).2.isSome =
        !ops.isEmpty) ∧
    (∀ c : Cache, (initModuleExitHook c).2.isSome = true) := by
  refine ⟨exitHook_isSome, ?_, fun c => rfl⟩
  intro f ops
  rw [exitHook_isSome, applyOps_dirty]
  rw [show (Cache.init f).dirty = false from loadFrom_dirty ⟨[], [], false⟩ f]
  simp

/-! ## Claim C9 -/

theorem alGet_mem {α β : Type} [DecidableEq α] {l : List (α × β)} {k : α}
    {v : β} (h : alGet l k = some v) : (k, v) ∈ l := by
  induction l with
  | nil => simp [alGet] at h
  | cons p t ih =>
    obtain ⟨a, b⟩ := p
    rw [alGet_cons] at h
    by_cases hpk : a = k
    · simp only [hpk, if_pos] at h
      simp only [Option.some_inj] at h
      subst hpk
      subst h
      exact List.mem_cons_self _ _
    · simp only [hpk, if_neg, not_false_iff] at h
      exact List.mem_cons_of_mem _ (ih h)

/-- **C9, counterexample.**  `load()` stores each category under the key
found in the file, ignoring the record's own `path`: a hand-crafted
accepted file mapping key `"k"` to `{"name": "n", "path": "other"}` loads
without error into a state violating the path-equals-key invariant. -/
theorem claim_C9_counterexample :
    ¬ CatInvariant (Cache.loadFrom ⟨[], [], false⟩
      (some (.stored (.dict [("categories", .dict [("s",
        .dict [("k", .dict [("name", .str "n"),
          ("path", .str "other")])])])])))) := by
  intro h
  have hm := h ("s", [("k", ⟨"n", "other", Option.none⟩)]) (by decide)
    ("k", ⟨"n", "other", Option.none⟩) (by decide)
  simp at hm

/-- **C9** (amended).  The path-equals-key invariant holds for the empty
cache, is preserved by `add_category` (which stores a category under its
own `path`) and by `add_product`, and is preserved by loading a file
produced by serializing a well-formed invariant-satisfying cache; but
`load` in general keys each category by the file's key regardless of the
record's `path`, so a hand-crafted accepted file can break it (see the
counterexample). -/
theorem claim_C9_path_key_invariant :
    CatInvariant ⟨[], [], false⟩ ∧
    (∀ (c : Cache) (site : String) (cat : Category), CatInvariant c →
      CatInvariant (c.add_category site cat)) ∧
    (∀ (c : Cache) (p : Product), CatInvariant c →
      CatInvariant (c.add_product p)) ∧
    (∀ c : Cache, c.WF → CatInvariant c →
      CatInvariant (Cache.init (some (.stored c.save)))) := by
  refine ⟨?_, ?_, ?_, ?_⟩
  · intro sc hsc
    simp at hsc
  · intro c site cat hinv sc hsc nc hnc
    simp only [Cache.add_category] at hsc
    rcases mem_alSet hsc with hsc | hsc
    · subst hsc
      rcases mem_alSet hnc with hnc | hnc
      · subst hnc; rfl
      · rcases hg : alGet c.categories site with _ | acc
        · rw [hg] at hnc
          simp at hnc
        · rw [hg] at hnc
          exact hinv (site, acc) (alGet_mem hg) nc hnc
    · exact hinv sc hsc nc hnc
  · intro c p hinv
    exact hinv
  · intro c hWF hinv
    rw [init_load_save c hWF]
    exact hinv

/-- **C9, witness.**  The preservation by `add_category`, evaluated at a
concrete category: it lands under its own path. -/
theorem claim_C9_path_key_invariant_witness :
    CatInvariant ((⟨[], [], false⟩ : Cache).add_category "audiojungle"
      ⟨"Ambient", "music/ambient", Option.none⟩) :=
  claim_C9_path_key_invariant.2.1 ⟨[], [], false⟩ "audiojungle"
    ⟨"Ambient", "music/ambient", Option.none⟩
    claim_C9_path_key_invariant.1

/-! ## Claim C10 -/

theorem getAttributeScan_spec :
    ∀ (attrs : List PyVal) (target : String),
      attrs.all attrWF = true →
      getAttributeScan target attrs =
        .ok (getAttributeSpec attrs target) := by
  intro attrs
  induction attrs with
  | nil => intro target _; rfl
  | cons a rest ih =>
    intro target hwf
    rw [List.all_cons, Bool.and_eq_true] at hwf
    obtain ⟨ha, hrest⟩ := hwf
    rcases a with _ | b | n | q | s0 | xs | d
    · exact absurd ha (by simp [attrWF])
    · exact absurd ha (by simp [attrWF])
    · exact absurd ha (by simp [attrWF])
    · exact absurd ha (by simp [attrWF])
    · exact absurd ha (by simp [attrWF])
    · exact absurd ha (by simp [attrWF])
    simp only [attrWF, Bool.and_eq_true] at ha
    obtain ⟨hname, hvalue⟩ := ha
    rcases hv : alGet d "name" with _ | v
    · rw [hv] at hname; simp at hname
    rcases hw : alGet d "value" with _ | w
    · rw [hw] at hvalue; simp at hvalue
    simp only [getAttributeScan]
    rw [show PyVal.getItem (.dict d) "name" = Except.ok v from by
      simp [PyVal.getItem, hv]]
    rw [bindM_ok]
    rcases v with _ | b | n | q | s | xs | dd
    case str =>
      show (if s = target then
          (PyVal.getItem (.dict d) "value").bind fun x => Except.ok (some x)
        else getAttributeScan target rest) =
        .ok (getAttributeSpec (PyVal.dict d :: rest) target)
      by_cases hst : s = target
      · subst hst
        rw [if_pos rfl]
        rw [show PyVal.getItem (.dict d) "value" = Except.ok w from by
          simp [PyVal.getItem, hw]]
        rw [except_bind_ok]
        rw [getAttributeSpec, List.find?_cons_of_pos _ (by simp [hv])]
        simp [hw]
      · rw [if_neg hst]
        rw [getAttributeSpec, List.find?_cons_of_neg _ (by simp [hv, hst])]
        exact ih target hrest
    all_goals
      rw [getAttributeSpec, List.find?_cons_of_neg _ (by simp [hv])]
    all_goals exact ih target hrest

/-- **C10.**  `Product.get_attribute` scans the attributes list in order
and returns the `value` of the first entry whose `name` equals the
target, or the absence signal `none` when no entry matches — duplicate
names are not an error, the first occurrence wins: the source scan agrees
with the spec-side first-match lookup `getAttributeSpec` on every
attributes list whose entries are `{name, value}` maps. -/
theorem claim_C10_get_attribute (p : Product) (attrs : List PyVal)
    (target : String) (hattr : p.attributes = .list attrs)
    (hwf : attrs.all attrWF = true) :
    p.get_attribute target = .ok (getAttributeSpec attrs target) := by
  simp only [Product.get_attribute]
  rw [hattr]
  exact getAttributeScan_spec attrs target hwf

/-- **C10, witness.**  On a list with a duplicated name, the first
occurrence wins. -/
theorem claim_C10_get_attribute_witness :
    dupAttrProduct.get_attribute "a" = .ok (some (.int 1)) :=
  (claim_C10_get_attribute dupAttrProduct dupAttrs "a" rfl
    (by decide)).trans rfl

/-! ## Claim C4 -/

/-- **C4, counterexample.**  On the claim's own scenario, every emitted
line of `category-sale-count` — header and data row alike — has exactly
five comma-separated fields (category, product count, total sales,
average sales, average revenue): no total-revenue value (the claim's
`250.00`) is emitted and no sales-to-total-products ratio is ever
computed, while the claim requires both among at least six fields. -/
theorem claim_C4_counterexample :
    (inspectCategorySaleCount c4Cache "themeforest").map
        (fun ls => ls.map fun r => (splitCommas r).length) =
      .ok [5, 5] := rfl

/-- **C4** (amended).  On two cached `themeforest.net` products with
classification `Music`, sales 10 and 20, prices 500 and 1000 cents,
`category-sale-count` emits exactly one data row with product count 2,
total sales 30, average sales `15.00` and average revenue `125.00`
(total revenue `250.00` is accumulated internally but only its average is
emitted, and no cached `Category.total_products` ratio exists in the
code); products of a different site are filtered out, leaving only the
header. -/
theorem claim_C4_category_sale_count :
    inspectCategorySaleCount c4Cache "themeforest" =
      .ok ["Category,Products,Total Sales,Average Sales,Average Revenue",
        "\"Music\",2,30,15.00,125.00"] ∧
      inspectCategorySaleCount c4Cache "audiojungle" =
        .ok ["Category,Products,Total Sales,Average Sales,Average Revenue"]
    := ⟨rfl, rfl⟩

/-! ## Claim C5 -/

/-- **C5, counterexample.**  In a `category-sale-count` data row the
numeric fields are interpolated bare: the second comma-separated field of
the emitted row is `1` (the product count) and does not start with a
double quote, contradicting "every field is wrapped in double
quotes". -/
theorem claim_C5_counterexample :
    inspectCategorySaleCount c5Cache "themeforest" =
        .ok ["Category,Products,Total Sales,Average Sales,Average Revenue",
          "\"Music\",1,7,7.00,17.50"] ∧
      ((splitCommas "\"Music\",1,7,7.00,17.50").getD 1 "").data.head? =
          some '1' ∧ '1' ≠ '"' :=
  ⟨rfl, rfl, by decide⟩

/-- **C5** (amended).  The string-valued fields — the category in
`category-sale-count`; URL, title and author in `category-head` — are
wrapped in double quotes with embedded double quotes escaped by doubling
(`My "Best" Track` becomes `"My ""Best"" Track"`); the numeric fields are
interpolated without quotes; the header row is the literal column names,
comma-joined and unquoted. -/
theorem claim_C5_csv_quoting :
    inspectCategoryHead c5Cache "themeforest" "Music" 10 =
      .ok ["URL,Title,Sales,Price,Total Revenue,Author Username",
        "\"http://u\",\"My \"\"Best\"\" Track\",7,2.50,17.50,\"alice\""]
    := rfl

/-! ## Claim C6 -/

theorem crawlPagesRequested_prefixOf (search : Nat → List Product) :
    ∀ pages : List Nat, crawlPagesRequested search pages <+: pages := by
  intro pages
  induction pages with
  | nil => simp [crawlPagesRequested]
  | cons p rest ih =>
    by_cases hp : (search p).isEmpty
    · refine ⟨rest, ?_⟩
      simp [crawlPagesRequested, hp]
    · obtain ⟨t, ht⟩ := ih
      refine ⟨t, ?_⟩
      simp [crawlPagesRequested, hp, ht]

theorem crawlPagesRequested_stop (search : Nat → List Product) :
    ∀ pages : List Nat, List.Pairwise (· < ·) pages →
      ∀ p q, p ∈ crawlPagesRequested search pages →
        q ∈ crawlPagesRequested search pages → p < q → search p ≠ [] := by
  intro pages
  induction pages with
  | nil => intro _ p q hp; simp [crawlPagesRequested] at hp
  | cons a rest ih =>
    intro hpw p q hp hq hlt
    rw [List.pairwise_cons] at hpw
    obtain ⟨ha, hrest⟩ := hpw
    by_cases he : (search a).isEmpty
    · simp [crawlPagesRequested, he] at hp hq
      subst hp
      subst hq
      omega
    · simp [crawlPagesRequested, he] at hp hq
      rcases hp with rfl | hp'
      · intro h0
        exact he (by simp [h0])
      · rcases hq with rfl | hq'
        · have hmem : p ∈ rest :=
            (crawlPagesRequested_prefixOf search rest).subset hp'
          have := ha p hmem
          omega
        · exact ih hrest p q hp' hq' hlt

/-- **C6.**  In an "all pages" crawl each category's requested pages form
a prefix of the ascending schedule 1..60; once a page returns zero
products no later page is requested for that category; every selected
category is processed regardless of the others' early termination; and on
the mocked API returning five products on page 1 and none on page 2, the
requested pages are exactly `[1, 2]` — two requests, page 3 never
issued. -/
theorem claim_C6_crawl_pagination :
    (∀ (search : Nat → List Product) (pages : List Nat),
      crawlPagesRequested search pages <+: pages) ∧
    (∀ (search : Nat → List Product) (p q : Nat),
      p ∈ crawlPagesRequested search allPages →
      q ∈ crawlPagesRequested search allPages →
      p < q → search p ≠ []) ∧
    (∀ (search : Category → Nat → List Product) (cats : List Category)
      (pages : List Nat), (crawlAll search cats pages).map (·.1) = cats) ∧
    crawlPagesRequested c6Search allPages = [1, 2] := by
  refine ⟨crawlPagesRequested_prefixOf, ?_, ?_, rfl⟩
  · intro search p q hp hq hlt
    exact crawlPagesRequested_stop search allPages (by decide) p q hp hq
      hlt
  · intro search cats pages
    simp only [crawlAll, List.map_map]
    have h : ((fun x : Category × List Nat => x.1) ∘
        fun cat => (cat, crawlPagesRequested (search cat) pages)) = id := by
      funext cat
      rfl
    rw [h, List.map_id]

/-- **C6, witness.**  The early-termination conjunct applied to the
scenario: page 1 precedes page 2 among the requested pages, so page 1
returned products. -/
theorem claim_C6_crawl_pagination_witness :
    c6Search 1 ≠ [] :=
  claim_C6_crawl_pagination.2.1 c6Search 1 2 (by decide) (by decide)
    (by norm_num)

/-! ## Claim C7 -/

theorem apiCallLoop_run (resp : Nat → HttpResp)
    (ras : Nat → Option String) (v : PyVal) :
    ∀ (n : Nat), ∀ (i fuel : Nat) (sleeps : List Int),
      (∀ j, j < n → resp (i + j) = .rateLimited (ras (i + j))) →
      resp (i + n) = .success v → n < fuel →
      apiCallLoop resp fuel i sleeps =
        some (sleeps ++
          (List.range n).map fun j => sleepFor429 (ras (i + j)),
          .returns v) := by
  intro n
  induction n with
  | zero =>
    intro i fuel sleeps _ hs hf
    cases fuel with
    | zero => omega
    | succ f =>
      have h : resp i = .success v := by simpa using hs
      simp [apiCallLoop, h]
  | succ m ih =>
    intro i fuel sleeps h429 hs hf
    cases fuel with
    | zero => omega
    | succ f =>
      have h0 : resp i = .rateLimited (ras i) := by
        simpa using h429 0 (by omega)
      simp only [apiCallLoop, h0]
      have hrec := ih (i + 1) f (sleeps ++ [sleepFor429 (ras i)])
        (fun j hj => by
          rw [show i + 1 + j = i + (j + 1) by omega]
          exact h429 (j + 1) (by omega))
        (by rw [show i + 1 + m = i + (m + 1) by omega]; exact hs)
        (by omega)
      rw [hrec]
      have hfe : ((fun j => sleepFor429 (ras (i + j))) ∘ Nat.succ) =
          fun j => sleepFor429 (ras (i + 1 + j)) := by
        funext j
        simp only [Function.comp_apply]
        congr 2
        omega
      rw [List.range_succ_eq_map, List.map_cons, List.map_map, hfe,
        Nat.add_zero, List.append_assoc, List.singleton_append]
      simp

/-- **C7** (amended).  The 429 retry loop never signals an error to the
caller for a 429: for every number `n` of consecutive 429 responses
followed by a success, the client performs exactly `n` waits — honouring
a `Retry-After` header that parses as a *nonnegative* integer, and
falling back to the fixed 60-second wait when the header is absent,
unparseable, or negative (a negative parsed value makes `time.sleep`
raise `ValueError`, which the surrounding `except ValueError` catches
into the 60-second branch) — and then returns the success response's
parsed body. -/
theorem claim_C7_rate_limit_retry :
    (∀ ra, sleepFor429 ra = retrySleepSpec ra) ∧
    (∀ (resp : Nat → HttpResp) (ras : Nat → Option String) (v : PyVal)
      (n fuel : Nat),
      (∀ i, i < n → resp i = .rateLimited (ras i)) →
      resp n = .success v → n < fuel →
      make_envato_api_call resp fuel =
        some ((List.range n).map fun i => retrySleepSpec (ras i),
          .returns v)) := by
  have hsleep : ∀ ra, sleepFor429 ra = retrySleepSpec ra := by
    intro ra
    rcases ra with _ | s
    · rfl
    by_cases hse : s = ""
    · subst hse; rfl
    simp only [sleepFor429, retrySleepSpec, hse, if_false]
    rcases hp : pyIntOfString s with e | n
    · rfl
    · by_cases hn : n < 0
      · simp [hn, show ¬(0 ≤ n) by omega]
      · simp [hn, show 0 ≤ n by omega]
  refine ⟨hsleep, ?_⟩
  intro resp ras v n fuel h429 hsu hf
  have h := apiCallLoop_run resp ras v n 0 fuel []
    (fun j hj => by simpa using h429 j hj)
    (by simpa using hsu) hf
  rw [make_envato_api_call, h]
  simp [hsleep]

/-- **C7, counterexample.**  On a 429 whose `Retry-After` header is
`-1` — present and parsing as the integer `-1` — the client does not
sleep `-1` seconds as the claim's rule dictates: `time.sleep(-1)` raises
`ValueError`, caught by the `except ValueError` around the parse, so the
client waits 60 seconds and then returns the next response's body. -/
theorem claim_C7_counterexample :
    make_envato_api_call c7BadResp 2 =
        some ([60], .returns (.str "ok")) ∧
      (60 : Int) ≠ -1 :=
  ⟨rfl, by decide⟩

/-- **C7, witness.**  The scenario of the spec: a 429 with
`Retry-After: 2` followed by a success sleeps 2 seconds and returns the
second response's body. -/
theorem claim_C7_rate_limit_retry_witness :
    make_envato_api_call c7OkResp 2 =
      some ([2], .returns (.str "body")) :=
  (claim_C7_rate_limit_retry.2 c7OkResp (fun _ => some "2") (.str "body")
    1 2 (fun i hi => by interval_cases i; rfl) rfl (by norm_num)).trans
    rfl

end EnvatoScrape
